import Mathlib

/-!
Verification development for the strategy-evaluation service
(`my-startup-showcase`).  The definitions below are a shallow embedding of
the TypeScript sources:

* `src/controllers/technicalIndicators/cache.ts` (`generateCacheKey`)
* `src/controllers/technicalIndicators/technicalIndicators.ts`
  (`getTechnicalIndicator`, the TTL table, response validation)
* the evaluation service (`evaluateSingleCondition`,
  `evaluateStrategiesForIndicator`)
* `src/controllers/scheduler/technicalStrategySource.ts` (the discovery
  tick of `startScheduler`)

JavaScript runtime values (parsed JSON, Prisma `Json` columns) are
modelled by `JsonVal`; a JavaScript object is a list of key/value pairs
in insertion order, `undefined` is modelled as the absence of a key.
JavaScript numbers are modelled as rationals.
-/

namespace Showcase

/-- A JavaScript/JSON value.  Objects keep their fields in insertion
order, as the runtime does; field names inside one object are unique. -/
inductive JsonVal where
  | null : JsonVal
  | bool : Bool → JsonVal
  | num : ℚ → JsonVal
  | str : String → JsonVal
  | arr : List JsonVal → JsonVal
  | obj : List (String × JsonVal) → JsonVal

/-- Escaping applied by `JSON.stringify` to string content (quote and
backslash; control characters do not occur in the values modelled here). -/
def jsonEscapeChar (c : Char) : String :=
  if c = '"' then "\\\"" else if c = '\\' then "\\\\" else String.singleton c

def jsonEscape (s : String) : String :=
  String.join (s.toList.map jsonEscapeChar)

/-- Rendering of a JavaScript number.  The parameter objects that are
serialized by the code carry integral numerics or strings, where this
agrees with `String(n)` / `JSON.stringify(n)`. -/
def jsNumRender (q : ℚ) : String :=
  if q.den = 1 then toString q.num else toString q

mutual

/-- `JSON.stringify`, on the values modelled by `JsonVal`. -/
def stringify : JsonVal → String
  | .null => "null"
  | .bool true => "true"
  | .bool false => "false"
  | .num q => jsNumRender q
  | .str s => "\"" ++ jsonEscape s ++ "\""
  | .arr xs => "[" ++ stringifyArr xs ++ "]"
  | .obj fs => "\x7b" ++ stringifyObj fs ++ "\x7d"
termination_by structural v => v

def stringifyArr : List JsonVal → String
  | [] => ""
  | [x] => stringify x
  | x :: y :: xs => stringify x ++ "," ++ stringifyArr (y :: xs)
termination_by structural l => l

def stringifyObj : List (String × JsonVal) → String
  | [] => ""
  | [(k, v)] => "\"" ++ jsonEscape k ++ "\":" ++ stringify v
  | (k, v) :: f :: fs =>
      "\"" ++ jsonEscape k ++ "\":" ++ stringify v ++ "," ++ stringifyObj (f :: fs)
termination_by structural l => l

end

/-- Lexicographic comparison of character lists by code point; on the
key strings appearing here this is exactly the JavaScript string
ordering (comparison by UTF-16 code units) used by `Array.sort`. -/
def charListLt : List Char → List Char → Bool
  | [], [] => false
  | [], _ :: _ => true
  | _ :: _, [] => false
  | a :: as, b :: bs =>
      if a.toNat < b.toNat then true
      else if b.toNat < a.toNat then false
      else charListLt as bs

def strLt (a b : String) : Bool := charListLt a.data b.data

/-- Insert a string into a lexicographically ascending list (helper for
the JavaScript `Array.prototype.sort` on string keys). -/
def insertStr (a : String) : List String → List String
  | [] => [a]
  | b :: bs => if strLt a b then a :: b :: bs else b :: insertStr a bs

/-- JavaScript `keys.sort()`: ascending lexicographic order. -/
def sortStrings : List String → List String
  | [] => []
  | a :: as => insertStr a (sortStrings as)

/-- Insert an object field into a list of fields kept in ascending key
order (used only by the canonicalization that defines structural
equality). -/
def insertField (f : String × JsonVal) :
    List (String × JsonVal) → List (String × JsonVal)
  | [] => [f]
  | g :: gs => if strLt f.1 g.1 then f :: g :: gs else g :: insertField f gs

def sortFields : List (String × JsonVal) → List (String × JsonVal)
  | [] => []
  | f :: fs => insertField f (sortFields fs)

mutual

/-- Canonical form of a value: object keys sorted recursively.  Two
values are structurally (deep-) equal exactly when their canonical forms
coincide; this is the order-independent equality the specification calls
"structural, not fuzzy". -/
def canon : JsonVal → JsonVal
  | .null => .null
  | .bool b => .bool b
  | .num q => .num q
  | .str s => .str s
  | .arr xs => .arr (canonArr xs)
  | .obj fs => .obj (sortFields (canonObj fs))
termination_by structural v => v

def canonArr : List JsonVal → List JsonVal
  | [] => []
  | x :: xs => canon x :: canonArr xs
termination_by structural l => l

def canonObj : List (String × JsonVal) → List (String × JsonVal)
  | [] => []
  | (k, v) :: fs => (k, canon v) :: canonObj fs
termination_by structural l => l

end

/-- Structural deep equality of JavaScript values: equality of objects is
independent of key insertion order, recursively. -/
def structEq (a b : JsonVal) : Prop := canon a = canon b

/-- Property access `o.k` on a JavaScript object modelled as a field
list; an absent key is `undefined`, modelled as `none`. -/
def jsGet (fields : List (String × JsonVal)) (k : String) : Option JsonVal :=
  fields.lookup k

/-- `String(value)` on a defined, non-null value. -/
def jsString : JsonVal → String
  | .null => "null"
  | .bool true => "true"
  | .bool false => "false"
  | .num q => jsNumRender q
  | .str s => s
  | .arr xs => stringifyArr xs
  | .obj _ => "[object Object]"

/-- `typeof v === 'object'` for a defined value (`null`, arrays and
objects). -/
def jsTypeofObject : JsonVal → Bool
  | .null => true
  | .arr _ => true
  | .obj _ => true
  | _ => false

/-!
## `generateCacheKey` (src/controllers/technicalIndicators/cache.ts)

The input `params` is a JavaScript object (field list).  The code builds
`keyParams` with the five fixed keys `indicatorType`, `symbol`,
`interval`, `parameters`, `dataSource` (in that insertion order), sorts
`Object.keys(keyParams)`, maps every key to `key + ":" + stringValue`
where null/undefined values are skipped, objects are `JSON.stringify`-ed
and other values go through `String(...)`, joins with `"|"` and prefixes
`"indicator:"`.
-/

/-- The five keys of `keyParams`, in the insertion order of the object
literal in `generateCacheKey`. -/
def cacheKeyFields : List String :=
  ["indicatorType", "symbol", "interval", "parameters", "dataSource"]

/-- One entry of the `sortedKeys.map(...)`: `null` for a skipped
component, otherwise the `key:stringValue` part. -/
def cacheKeyPart (params : List (String × JsonVal)) (key : String) :
    Option String :=
  match jsGet params key with
  | none => none                       -- undefined component: skipped
  | some .null => none                 -- null component: skipped
  | some v =>
      some (key ++ ":" ++ (if jsTypeofObject v then stringify v else jsString v))

def generateCacheKey (params : List (String × JsonVal)) : String :=
  "indicator:" ++
    String.intercalate "|"
      ((sortStrings cacheKeyFields).filterMap (cacheKeyPart params))

/-- Collapse the two component shapes `generateCacheKey` skips — an
absent (`undefined`) field and a field set to `null` — into one value;
two lookups with the same image contribute the same key component. -/
def normNullable : Option JsonVal → Option JsonVal
  | some .null => none
  | o => o

/-!
## `getTechnicalIndicator`
(src/controllers/technicalIndicators/technicalIndicators.ts)

The function is modelled as a pure map from its inputs — the request
parameters, the `forceRefresh` flag, the current contents of the Redis
cache, and the provider's response — to an outcome recording the
returned value, whether the provider was contacted, the cache write (if
any) and the published indicator-update events (if any).  Errors thrown
inside the `try` block are caught by the final handler, which logs and
returns `null`; this is the `result = none` outcome.
-/

/-- A parsed entry of the freshness cache, as stored by
`setCachedIndicatorData` and returned by `getCachedIndicatorEntry`.
The model's cache map only contains entries that are present and
unexpired (Redis TTL expiry makes an entry absent). -/
structure CacheEntry where
  data : JsonVal
  metadata : JsonVal
  fetchedAt : String

/-- The provider call either yields a parsed JSON body or fails
(network error / HTTP error), which the `catch` block turns into a
logged soft failure. -/
inductive ProviderResult where
  | ok : JsonVal → ProviderResult
  | err : ProviderResult

/-- JavaScript truthiness of a defined value. -/
def jsTruthy : JsonVal → Bool
  | .null => false
  | .bool b => b
  | .num q => decide (q ≠ 0)
  | .str s => decide (s ≠ "")
  | .arr _ => true
  | .obj _ => true

/-- Truthiness of a possibly-undefined value (`undefined` is falsy). -/
def jsTruthyOpt : Option JsonVal → Bool
  | none => false
  | some v => jsTruthy v

/-- Property access `v[k]` on an arbitrary value; non-objects have no
own string-keyed properties in the payloads modelled here. -/
def jsGetVal (v : JsonVal) (k : String) : Option JsonVal :=
  match v with
  | .obj fs => fs.lookup k
  | _ => none

/-- The validation in `getTechnicalIndicator`:
`!data || typeof data !== 'object' || data["Error Message"] || !data['Meta Data']`. -/
def responseInvalid (data : JsonVal) : Bool :=
  !(jsTruthy data) || !(jsTypeofObject data) ||
    jsTruthyOpt (jsGetVal data "Error Message") ||
    !(jsTruthyOpt (jsGetVal data "Meta Data"))

/-- Does the character list start with the given pattern? -/
def charsStartWith : List Char → List Char → Bool
  | _, [] => true
  | [], _ :: _ => false
  | a :: as, b :: bs => a == b && charsStartWith as bs

/-- Does the character list contain the pattern as a contiguous run? -/
def charsContain (s pat : List Char) : Bool :=
  charsStartWith s pat ||
    match s with
    | [] => false
    | _ :: rest => charsContain rest pat

/-- Substring test (`String.prototype.includes`). -/
def strContainsSub (s pat : String) : Bool := charsContain s.data pat.data

/-- The rate-limit detection of `getTechnicalIndicator`:
`(data["Note"] || data["Information"])?.includes("API call frequency")`.
In the code this check only produces a log line and is only reached
once the response has already failed validation. -/
def hasRateLimitSignal (data : JsonVal) : Bool :=
  let noteOrInfo :=
    match jsGetVal data "Note" with
    | some v => if jsTruthy v then some v else jsGetVal data "Information"
    | none => jsGetVal data "Information"
  match noteOrInfo with
  | some (.str s) => strContainsSub s "API call frequency"
  | _ => false

/-- `Object.values(v)` (arrays enumerate their elements). -/
def objValues : JsonVal → List JsonVal
  | .obj fs => fs.map Prod.snd
  | .arr xs => xs
  | _ => []

/-- The predicate of the `.find` used to locate the data block:
`typeof val === 'object' && val !== null && !val.hasOwnProperty('1: Symbol')`. -/
def isExtractableDataBlock : JsonVal → Bool
  | .obj fs => !(fs.any (fun f => f.1 == "1: Symbol"))
  | .arr _ => true
  | _ => false

/-- The TTL table of `getTechnicalIndicator`, from the `params.interval`
field: default 24h, `1min` → 60*5, `5min` → 300*2, `daily` → 86400+3600,
`weekly` → 86400*7+3600, `monthly` → 86400*30+3600 (seconds). -/
def computeTtlSeconds (interval : Option JsonVal) : Nat :=
  match interval with
  | some (.str s) =>
      if s = "1min" then 60 * 5
      else if s = "5min" then 300 * 2
      else if s = "daily" then 86400 + 3600
      else if s = "weekly" then 86400 * 7 + 3600
      else if s = "monthly" then 86400 * 30 + 3600
      else 86400
  | _ => 86400

/-- Object spread update `(\x7b ...m, k: v \x7d)`: overwrite `k` in
place if present, else append it. -/
def jsSetField (m : JsonVal) (k : String) (v : JsonVal) : JsonVal :=
  match m with
  | .obj fs =>
      if fs.any (fun f => f.1 == k) then
        .obj (fs.map (fun f => if f.1 == k then (k, v) else f))
      else .obj (fs ++ [(k, v)])
  | _ => .obj [(k, v)]

/-- The payload handed to `publishIndicatorUpdate`. -/
structure IndicatorUpdateEvent where
  cacheKey : String
  indicatorType : Option JsonVal
  symbol : Option JsonVal
  interval : Option JsonVal
  parameters : List (String × JsonVal)
  lastRefreshed : Option JsonVal

/-- The observable outcome of one `getTechnicalIndicator` call. -/
structure FetchOutcome where
  result : Option JsonVal
  providerCalled : Bool
  cacheWrite : Option (String × JsonVal × JsonVal × Nat)
  published : List IndicatorUpdateEvent

def getTechnicalIndicator (params : List (String × JsonVal))
    (forceRefresh : Bool) (cache : String → Option CacheEntry)
    (provider : ProviderResult) : FetchOutcome :=
  let cacheKey := generateCacheKey params
  -- the body of the try block, reached when the cache check falls through
  let fetchPath : FetchOutcome :=
    match provider with
    | .err => ⟨none, true, none, []⟩
    | .ok data =>
      if responseInvalid data then ⟨none, true, none, []⟩
      else
        match (objValues data).find? isExtractableDataBlock with
        | none => ⟨none, true, none, []⟩
        | some actualIndicatorData =>
          -- `const metadata = data['Meta Data'] || \x7b\x7d`
          let metadata :=
            match jsGetVal data "Meta Data" with
            | some m => if jsTruthy m then m else .obj []
            | none => .obj []
          let lastRefreshedAV := jsGetVal metadata "3: Last Refreshed"
          let ttlSeconds := computeTtlSeconds (jsGet params "interval")
          -- `\x7b ...metadata, alphaVantageLastRefreshed: lastRefreshedAV \x7d`;
          -- an undefined lastRefreshed field is dropped again by the
          -- JSON serialization of the stored entry
          let storedMetadata :=
            match lastRefreshedAV with
            | some lv => jsSetField metadata "alphaVantageLastRefreshed" lv
            | none => metadata
          ⟨some actualIndicatorData, true,
           some (cacheKey, actualIndicatorData, storedMetadata, ttlSeconds),
           [⟨cacheKey, jsGet params "function", jsGet params "symbol",
             jsGet params "interval", params, lastRefreshedAV⟩]⟩
  if forceRefresh = false then
    match cache cacheKey with
    | some cachedEntry => ⟨some cachedEntry.data, false, none, []⟩
    | none => fetchPath
  else fetchPath

/-!
## The Evaluation Engine
(evaluator: `evaluateSingleCondition`, `evaluateStrategiesForIndicator`)

Database rows follow `prisma/schema.prisma`; nullable columns are
`Option`s (Prisma surfaces SQL NULL as JavaScript `null`).
-/

/-- The `Operator` enum of the Prisma schema. -/
inductive Operator where
  | EQUALS | NOT_EQUALS
  | GREATER_THAN | LESS_THAN
  | GREATER_THAN_OR_EQUAL | LESS_THAN_OR_EQUAL
  | CROSSES_ABOVE | CROSSES_BELOW
deriving DecidableEq

/-- The `ActionType` enum of the Prisma schema. -/
inductive ActionType where
  | BUY | SELL | NOTIFY | REBALANCE | LOG_MESSAGE
deriving DecidableEq

/-- A `Condition` row. -/
structure ConditionRow where
  id : String
  indicatorType : String
  dataSource : Option String
  dataKey : Option String
  symbol : Option String
  interval : Option String
  parameters : JsonVal
  operator : Operator
  targetValue : Option ℚ
  targetIndicatorId : Option String

/-- An `Action` row. -/
structure ActionRow where
  id : String
  actionType : ActionType
  parameters : JsonVal
  order : Int

/-- A `StrategyBlock` row with its included `condition` and `action`
relations, as fetched per strategy by the evaluator. -/
structure StrategyBlockRow where
  strategyId : String
  order : Int
  condition : Option ConditionRow
  action : Option ActionRow

/-- A nullable string column as the JavaScript value Prisma returns. -/
def optStrVal : Option String → JsonVal
  | some s => .str s
  | none => .null

/-- The cache-key parameter object built (identically) in
`evaluateSingleCondition`, in the per-condition evaluation loop, and by
the fetch path: `\x7b indicatorType, symbol, interval, parameters,
dataSource \x7d` of a condition row. -/
def condKeyParams (c : ConditionRow) : List (String × JsonVal) :=
  [("indicatorType", .str c.indicatorType),
   ("symbol", optStrVal c.symbol),
   ("interval", optStrVal c.interval),
   ("parameters", c.parameters),
   ("dataSource", optStrVal c.dataSource)]

/-- The database and cache contents an evaluation runs against:
the `Condition` table (for `targetIndicatorId` lookups) and the Redis
cache as seen through `getCachedIndicatorEntry`. -/
structure EvalEnv where
  conditionTable : List ConditionRow
  cache : String → Option CacheEntry

/-- `parseFloat` on the series values that occur in provider payloads:
numbers, and plain decimal strings (optional sign, digits, optional
fractional part).  Other shapes are unparseable (`NaN`). -/
def digitsVal (l : List Char) : Nat :=
  l.foldl (fun n c => 10 * n + (c.toNat - 48)) 0

def jsParseFloat : JsonVal → Option ℚ
  | .num q => some q
  | .str s =>
      let (sign, rest) : ℚ × List Char :=
        match s.data with
        | '-' :: cs => (-1, cs)
        | '+' :: cs => (1, cs)
        | cs => (1, cs)
      let intPart := rest.takeWhile Char.isDigit
      let after := rest.drop intPart.length
      if intPart.isEmpty then none
      else
        match after with
        | [] => some (sign * (digitsVal intPart : ℚ))
        | '.' :: frac =>
            if frac.all Char.isDigit ∧ ¬ frac.isEmpty then
              some (sign * ((digitsVal intPart : ℚ) +
                (digitsVal frac : ℚ) / (10 : ℚ) ^ frac.length))
            else none
        | _ => none
  | _ => none

/-- `Object.keys` of a value that passed the
`typeof === 'object'` check (arrays enumerate their index strings). -/
def indexedFields : JsonVal → Option (List (String × JsonVal))
  | .obj fs => some fs
  | .arr xs => some ((List.range xs.length).zip xs |>.map
      (fun p => (toString p.1, p.2)))
  | _ => none

/-- The shared tail of `getLatestIndicatorValue` /
`getPreviousIndicatorValue`: check the data point is an object, find the
first key with a parseable numeric value, and parse it. -/
def extractNumericValue (dataPoint : JsonVal) : Option ℚ :=
  if jsTruthy dataPoint = false then none
  else
    match indexedFields dataPoint with
    | none => none
    | some pointFields =>
        match pointFields.find? (fun f => (jsParseFloat f.2).isSome) with
        | none => none
        | some f => jsParseFloat f.2

/-- `getLatestIndicatorValue`: most recent data point of the series
(dates sorted descending), first numeric field of that point. -/
def getLatestIndicatorValue (indicatorData : JsonVal) : Option ℚ :=
  if jsTruthy indicatorData = false then none
  else
    match indexedFields indicatorData with
    | none => none
    | some fs =>
        match (sortStrings (fs.map Prod.fst)).reverse with
        | [] => none
        | latestDate :: _ =>
            extractNumericValue ((fs.lookup latestDate).getD .null)

/-- `getPreviousIndicatorValue`: the data point immediately preceding
the most recent one; `none` when fewer than two points exist. -/
def getPreviousIndicatorValue (indicatorData : JsonVal) : Option ℚ :=
  if jsTruthy indicatorData = false then none
  else
    match indexedFields indicatorData with
    | none => none
    | some fs =>
        match (sortStrings (fs.map Prod.fst)).reverse with
        | _ :: previousDate :: _ =>
            extractNumericValue ((fs.lookup previousDate).getD .null)
        | _ => none

/-- The operator switch ending `evaluateSingleCondition`, applied to the
already-resolved numeric target. -/
def applyOperator (op : Operator) (currentValue : ℚ)
    (previousValue : Option ℚ) (target : ℚ) : Bool :=
  match op with
  | .GREATER_THAN => decide (currentValue > target)
  | .LESS_THAN => decide (currentValue < target)
  | .EQUALS => decide (|currentValue - target| < 0.0001)
  | .NOT_EQUALS => decide (|currentValue - target| ≥ 0.0001)
  | .GREATER_THAN_OR_EQUAL => decide (currentValue ≥ target)
  | .LESS_THAN_OR_EQUAL => decide (currentValue ≤ target)
  | .CROSSES_ABOVE =>
      match previousValue with
      | none => false
      | some p => decide (p ≤ target) && decide (currentValue > target)
  | .CROSSES_BELOW =>
      match previousValue with
      | none => false
      | some p => decide (p ≥ target) && decide (currentValue < target)

/-- `evaluateSingleCondition`: resolve the comparison target (a fixed
`targetValue`, or the latest cached value of the condition referenced by
`targetIndicatorId`; every failure on that path returns `false`), then
apply the operator. -/
def evaluateSingleCondition (env : EvalEnv) (condition : ConditionRow)
    (currentValue : ℚ) (previousValue : Option ℚ) : Bool :=
  let target? : Option ℚ :=
    match condition.targetIndicatorId with
    | some tid =>
        match env.conditionTable.find? (fun c => c.id == tid) with
        | none => none
        | some targetCondition =>
            match env.cache (generateCacheKey (condKeyParams targetCondition)) with
            | none => none
            | some targetEntry => getLatestIndicatorValue targetEntry.data
    | none => condition.targetValue
  match target? with
  | none => false
  | some target => applyOperator condition.operator currentValue previousValue target

/-- One iteration of the per-condition loop in
`evaluateStrategiesForIndicator`: cache lookup for the condition's own
fingerprint, extraction of current/previous values, then
`evaluateSingleCondition`; any missing piece makes the condition fail. -/
def conditionSatisfied (env : EvalEnv) (condition : ConditionRow) : Bool :=
  match env.cache (generateCacheKey (condKeyParams condition)) with
  | none => false
  | some cachedEntry =>
      match getLatestIndicatorValue cachedEntry.data with
      | none => false
      | some currentValue =>
          evaluateSingleCondition env condition currentValue
            (getPreviousIndicatorValue cachedEntry.data)

/-- Recursion worker for `keepFirstById`, carrying the ids already
seen. -/
def keepFirstByIdAux {α : Type} (idOf : α → String) (seen : List String) :
    List α → List α
  | [] => []
  | x :: xs =>
      if seen.contains (idOf x) then keepFirstByIdAux idOf seen xs
      else x :: keepFirstByIdAux idOf (idOf x :: seen) xs

/-- The keep-first-occurrence deduplication idiom
`filter((x, i, self) => i === self.findIndex(c => c.id === x.id))`. -/
def keepFirstById {α : Type} (idOf : α → String) (l : List α) : List α :=
  keepFirstByIdAux idOf [] l

/-- The event published per action of a fully satisfied strategy. -/
structure ActionRequiredEvent where
  actionId : String
  actionType : ActionType
  parameters : JsonVal
  strategyId : String
  triggeringIndicator : List (String × JsonVal)

/-- The per-strategy part of `evaluateStrategiesForIndicator` (step 3
and 4): collect the de-duplicated conditions and actions over the
strategy's blocks, skip if there are no conditions, require every
condition to be satisfied (AND, short-circuiting), and publish one
`ActionRequiredEvent` per action on success.  The returned list is the
sequence of published events. -/
def evaluateStrategy (env : EvalEnv)
    (indicatorUpdatePayload : List (String × JsonVal))
    (strategyId : String) (strategyBlocks : List StrategyBlockRow) :
    List ActionRequiredEvent :=
  let allStrategyConditions :=
    keepFirstById (fun c => c.id) (strategyBlocks.filterMap (fun b => b.condition))
  let allStrategyActions :=
    keepFirstById (fun a => a.id) (strategyBlocks.filterMap (fun b => b.action))
  if allStrategyConditions.isEmpty then []
  else if allStrategyConditions.all (conditionSatisfied env) then
    allStrategyActions.map (fun action =>
      ⟨action.id, action.actionType,
       (match action.parameters with
        | .obj fs => .obj fs
        | .arr xs => .arr xs
        | _ => .obj []),
       strategyId, indicatorUpdatePayload⟩)
  else []

/-- A `Condition` row together with its included `strategyBlocks`
relation (`strategyId` and the strategy's `isActive` flag), as returned
by the `findMany` in step 1 of `evaluateStrategiesForIndicator`. -/
structure CondWithLinks where
  row : ConditionRow
  strategyBlocks : List (String × Bool)

/-- The validated fields of an indicator-update payload. -/
structure IndicatorEventFields where
  indicatorType : String
  symbol : String
  interval : String
  parameters : JsonVal

/-- The `where` clause of step 1: equality on
`indicatorType`, `symbol`, `interval` (a NULL column matches no
event). -/
def matchesEventProfile (ev : IndicatorEventFields) (c : CondWithLinks) : Bool :=
  c.row.indicatorType == ev.indicatorType &&
    c.row.symbol == some ev.symbol &&
    c.row.interval == some ev.interval

/-- Step 2 of `evaluateStrategiesForIndicator`, applied to the condition
table: the conditions the engine keeps for evaluation are those matching
the event profile whose parameters `JSON.stringify` to the same string
as the event's parameters and which are linked to a block of an active
strategy; all others are filtered out. -/
def keptConditions (ev : IndicatorEventFields)
    (conditionTable : List CondWithLinks) : List CondWithLinks :=
  (conditionTable.filter (matchesEventProfile ev)).filter (fun c =>
    (stringify c.row.parameters == stringify ev.parameters) &&
      c.strategyBlocks.any (fun b => b.2))

/-!
## The Discovery Scheduler
(`startScheduler` in src/controllers/scheduler/technicalStrategySource.ts)

The discovery tick diffs the `scheduledJobs` map (fingerprint → cron
task) against the job keys of the freshly scanned indicator set: new
keys get a task scheduled, keys that disappeared have their task stopped
and deleted, existing keys are left alone.  Cron task handles are
modelled as natural numbers handed out by a counter, so that "the same
task object" is expressible; `scheduleIndicatorFetch` lives in
`fetchOrchestrator.ts`, which is not among the sources — following the
specification ("for every fingerprint with no existing task, create a
recurring refresh task"), task creation is modelled as always returning
a fresh handle. -/
structure SchedulerState where
  scheduledJobs : List (String × Nat)
  nextTaskHandle : Nat

/-- The result of one discovery tick: the new state and the task handles
that were stopped (`task.stop()`) during pruning. -/
structure TickResult where
  state : SchedulerState
  stoppedTasks : List Nat

/-- The scheduling phase of the tick body: for each scanned indicator in
order, compute its job key and schedule a fetch task unless the key is
already present. -/
def scheduleNewJobs (newJobKeys : List String) (st : SchedulerState) :
    SchedulerState :=
  match newJobKeys with
  | [] => st
  | jobKey :: rest =>
      scheduleNewJobs rest
        (if st.scheduledJobs.any (fun j => j.1 == jobKey) then st
         else ⟨st.scheduledJobs ++ [(jobKey, st.nextTaskHandle)],
               st.nextTaskHandle + 1⟩)

/-- One discovery tick of `startScheduler`: compute the job keys of the
scanned indicators via `generateCacheKey`, schedule tasks for new keys,
then stop and remove every job whose key is absent from the new key
set. -/
def discoveryTick (indicatorsToSchedule : List (List (String × JsonVal)))
    (st : SchedulerState) : TickResult :=
  let newJobKeys := indicatorsToSchedule.map generateCacheKey
  let afterAdd := scheduleNewJobs newJobKeys st
  ⟨⟨afterAdd.scheduledJobs.filter (fun j => newJobKeys.contains j.1),
    afterAdd.nextTaskHandle⟩,
   (afterAdd.scheduledJobs.filter (fun j => !(newJobKeys.contains j.1))).map
     Prod.snd⟩

/-- Well-formedness of the task map: distinct job keys, distinct task
handles, and all handles already handed out below the counter.  These
hold of the initial empty map and are preserved by every tick. -/
def SchedulerWF (st : SchedulerState) : Prop :=
  (st.scheduledJobs.map Prod.fst).Nodup ∧
  (st.scheduledJobs.map Prod.snd).Nodup ∧
  ∀ t ∈ st.scheduledJobs.map Prod.snd, t < st.nextTaskHandle

/-- The task currently scheduled for a job key
(`scheduledJobs.get(jobKey)`). -/
def jobTask (st : SchedulerState) (jobKey : String) : Option Nat :=
  (st.scheduledJobs.find? (fun j => j.1 == jobKey)).map Prod.snd

/-!
# Theorems

Shared helper lemmas first, then one theorem per specification claim
(with a witness instantiation where the theorem carries hypotheses).
-/

/-- A fingerprint component is a function of the null/undefined-collapsed
field lookup alone. -/
lemma cacheKeyPart_eq_norm (p : List (String × JsonVal)) (k : String) :
    cacheKeyPart p k = (normNullable (jsGet p k)).map
      (fun v => k ++ ":" ++ (if jsTypeofObject v then stringify v else jsString v)) := by
  cases h : jsGet p k with
  | none => simp [cacheKeyPart, normNullable, h]
  | some v => cases v <;> simp [cacheKeyPart, normNullable, h]

/-- Two parameter objects whose five fingerprint fields agree up to the
null/undefined collapse produce the same fingerprint. -/
lemma generateCacheKey_congr {p1 p2 : List (String × JsonVal)}
    (h : ∀ k ∈ cacheKeyFields, normNullable (jsGet p1 k) = normNullable (jsGet p2 k)) :
    generateCacheKey p1 = generateCacheKey p2 := by
  unfold generateCacheKey
  congr 1
  congr 1
  apply List.filterMap_congr
  intro k hk
  rw [cacheKeyPart_eq_norm, cacheKeyPart_eq_norm]
  rw [h k ?_]
  rw [show sortStrings cacheKeyFields =
      ["dataSource", "indicatorType", "interval", "parameters", "symbol"] from rfl] at hk
  simp only [List.mem_cons, List.not_mem_nil, or_false] at hk
  rcases hk with rfl | rfl | rfl | rfl | rfl <;> decide

/-- C6: the TTL table is strictly increasing across the interval tiers
1min, 5min, daily, weekly, monthly, and the daily tier exceeds 24 hours
(86400 s). -/
theorem ttl_strictly_increasing_across_tiers :
    computeTtlSeconds (some (.str "1min")) < computeTtlSeconds (some (.str "5min")) ∧
    computeTtlSeconds (some (.str "5min")) < computeTtlSeconds (some (.str "daily")) ∧
    computeTtlSeconds (some (.str "daily")) < computeTtlSeconds (some (.str "weekly")) ∧
    computeTtlSeconds (some (.str "weekly")) < computeTtlSeconds (some (.str "monthly")) ∧
    86400 < computeTtlSeconds (some (.str "daily")) := by
  decide

/-- C7: with the forced-refresh flag unset and an unexpired cache entry
present under the request's fingerprint, `getTechnicalIndicator` returns
the entry's data and neither contacts the provider, nor writes the
cache, nor publishes an event. -/
theorem getTechnicalIndicator_cache_hit
    (params : List (String × JsonVal)) (cache : String → Option CacheEntry)
    (provider : ProviderResult) (entry : CacheEntry)
    (h : cache (generateCacheKey params) = some entry) :
    getTechnicalIndicator params false cache provider =
      ⟨some entry.data, false, none, []⟩ := by
  unfold getTechnicalIndicator
  simp [h]

/-- Witness for C7 at a concrete request and cache. -/
theorem getTechnicalIndicator_cache_hit_witness :
    (fun _ : String => some (⟨.str "payload", .obj [], "t0"⟩ : CacheEntry))
        (generateCacheKey [("interval", .str "daily")]) =
      some (⟨.str "payload", .obj [], "t0"⟩ : CacheEntry) ∧
    getTechnicalIndicator [("interval", .str "daily")] false
        (fun _ => some ⟨.str "payload", .obj [], "t0"⟩) .err =
      ⟨some (.str "payload"), false, none, []⟩ :=
  ⟨rfl, getTechnicalIndicator_cache_hit _ _ _ _ rfl⟩

/-- C8 counterexample: a provider response that carries the rate-limit
signal in its body (`Note` containing "API call frequency") but has an
intact `Meta Data` block and an extractable data block is *not* treated
as a soft failure: the fetch writes the cache and publishes an event. -/
theorem rate_limited_response_still_cached :
    hasRateLimitSignal
      (.obj [("Meta Data", .obj [("1: Symbol", .str "AAPL"),
                                 ("3: Last Refreshed", .str "2024-01-02")]),
             ("Note", .str "Thank you for using Alpha Vantage! Our standard API call frequency is 25 requests per day."),
             ("Technical Analysis: SMA",
              .obj [("2024-01-02", .obj [("SMA", .num 155)])])]) = true ∧
    (getTechnicalIndicator [("interval", .str "daily")] false (fun _ => none)
      (.ok (.obj [("Meta Data", .obj [("1: Symbol", .str "AAPL"),
                                      ("3: Last Refreshed", .str "2024-01-02")]),
                  ("Note", .str "Thank you for using Alpha Vantage! Our standard API call frequency is 25 requests per day."),
                  ("Technical Analysis: SMA",
                   .obj [("2024-01-02", .obj [("SMA", .num 155)])])]))).cacheWrite.isSome
      = true ∧
    (getTechnicalIndicator [("interval", .str "daily")] false (fun _ => none)
      (.ok (.obj [("Meta Data", .obj [("1: Symbol", .str "AAPL"),
                                      ("3: Last Refreshed", .str "2024-01-02")]),
                  ("Note", .str "Thank you for using Alpha Vantage! Our standard API call frequency is 25 requests per day."),
                  ("Technical Analysis: SMA",
                   .obj [("2024-01-02", .obj [("SMA", .num 155)])])]))).published.length
      = 1 :=
  ⟨rfl, rfl, rfl⟩

/-- C8 (amended): when a fetch cycle reaches the provider (forced
refresh, or no unexpired cache entry) and the call fails or the response
fails validation — non-object or falsy body, a truthy `Error Message`
marker, a missing/falsy `Meta Data` block, or no extractable data
block — the cycle is a soft failure: `null` is returned (the error is
caught and logged, not propagated), nothing is written to the cache and
no event is published. -/
theorem getTechnicalIndicator_soft_failure
    (params : List (String × JsonVal)) (forceRefresh : Bool)
    (cache : String → Option CacheEntry) (provider : ProviderResult)
    (hReach : forceRefresh = true ∨ cache (generateCacheKey params) = none)
    (hBad : provider = .err ∨
      ∃ data, provider = .ok data ∧
        (responseInvalid data = true ∨
          (objValues data).find? isExtractableDataBlock = none)) :
    getTechnicalIndicator params forceRefresh cache provider =
      ⟨none, true, none, []⟩ := by
  unfold getTechnicalIndicator
  rcases hBad with rfl | ⟨data, rfl, hbad⟩
  · rcases hReach with rfl | hmiss <;> simp [*]
  · rcases hbad with hinv | hnone
    · rcases hReach with rfl | hmiss <;> simp [*]
    · rcases hReach with rfl | hmiss <;>
        rcases hinv2 : responseInvalid data <;> simp [*]

/-- Witness for C8 (amended) at a concrete rate-limit-only response
(`Note` without `Meta Data`), which both carries the rate-limit signal
and fails validation. -/
theorem getTechnicalIndicator_soft_failure_witness :
    responseInvalid (.obj [("Note", .str "Our standard API call frequency is 25 requests per day.")]) = true ∧
    hasRateLimitSignal (.obj [("Note", .str "Our standard API call frequency is 25 requests per day.")]) = true ∧
    getTechnicalIndicator [("interval", .str "daily")] false (fun _ => none)
        (.ok (.obj [("Note", .str "Our standard API call frequency is 25 requests per day.")])) =
      ⟨none, true, none, []⟩ :=
  ⟨rfl, rfl,
   getTechnicalIndicator_soft_failure _ _ _ _ (Or.inr rfl)
     (Or.inr ⟨_, rfl, Or.inl rfl⟩)⟩

/-- C10: `generateCacheKey` omits every null/undefined component, so two
parameter objects whose five fingerprint fields agree after collapsing
null and undefined — e.g. one carrying an explicit `null` where the
other lacks the key — produce identical fingerprints (hence share one
cache entry and one scheduled job slot, both being keyed by this
string). -/
theorem generateCacheKey_skips_null_components
    (p1 p2 : List (String × JsonVal))
    (h : ∀ k ∈ cacheKeyFields, normNullable (jsGet p1 k) = normNullable (jsGet p2 k)) :
    (∀ k, normNullable (jsGet p1 k) = none → cacheKeyPart p1 k = none) ∧
    generateCacheKey p1 = generateCacheKey p2 :=
  ⟨fun k hk => by rw [cacheKeyPart_eq_norm, hk]; rfl,
   generateCacheKey_congr h⟩

/-- Witness for C10: `dataSource: null` versus an absent `dataSource`. -/
theorem generateCacheKey_skips_null_components_witness :
    (∀ k ∈ cacheKeyFields,
      normNullable (jsGet [("indicatorType", .str "SMA"), ("dataSource", JsonVal.null)] k) =
      normNullable (jsGet [("indicatorType", .str "SMA")] k)) ∧
    generateCacheKey [("indicatorType", .str "SMA"), ("dataSource", JsonVal.null)] =
      generateCacheKey [("indicatorType", .str "SMA")] := by
  have h : ∀ k ∈ cacheKeyFields,
      normNullable (jsGet [("indicatorType", .str "SMA"), ("dataSource", JsonVal.null)] k) =
      normNullable (jsGet [("indicatorType", .str "SMA")] k) := by
    intro k hk
    simp only [cacheKeyFields, List.mem_cons, List.not_mem_nil, or_false] at hk
    rcases hk with rfl | rfl | rfl | rfl | rfl <;> rfl
  exact ⟨h, (generateCacheKey_skips_null_components _ _ h).2⟩

/-- C1 counterexample: two structurally equal parameter records that
differ only in the key insertion order inside the nested `parameters`
object receive different fingerprints, because the nested object is
serialized with order-sensitive `JSON.stringify`. -/
theorem generateCacheKey_nested_order_sensitive :
    structEq
      (.obj [("indicatorType", .str "SMA"), ("symbol", .str "AAPL"),
             ("interval", .str "daily"),
             ("parameters", .obj [("time_period", .num 20),
                                  ("series_type", .str "close")])])
      (.obj [("indicatorType", .str "SMA"), ("symbol", .str "AAPL"),
             ("interval", .str "daily"),
             ("parameters", .obj [("series_type", .str "close"),
                                  ("time_period", .num 20)])]) ∧
    generateCacheKey
        [("indicatorType", .str "SMA"), ("symbol", .str "AAPL"),
         ("interval", .str "daily"),
         ("parameters", .obj [("time_period", .num 20),
                              ("series_type", .str "close")])] ≠
      generateCacheKey
        [("indicatorType", .str "SMA"), ("symbol", .str "AAPL"),
         ("interval", .str "daily"),
         ("parameters", .obj [("series_type", .str "close"),
                              ("time_period", .num 20)])] :=
  ⟨rfl, by decide⟩

/-- C1 (amended): the fingerprint is invariant under top-level key
reordering and object identity — it depends only on the values looked up
at the five fingerprint fields — but not under key reordering inside the
nested `parameters` object. -/
theorem generateCacheKey_top_level_order_invariant
    (p1 p2 : List (String × JsonVal))
    (h : ∀ k ∈ cacheKeyFields, jsGet p1 k = jsGet p2 k) :
    generateCacheKey p1 = generateCacheKey p2 :=
  generateCacheKey_congr (fun k hk => by rw [h k hk])

/-- Witness for C1 (amended) at two records with swapped top-level key
order. -/
theorem generateCacheKey_top_level_order_invariant_witness :
    (∀ k ∈ cacheKeyFields,
      jsGet [("symbol", .str "AAPL"), ("interval", .str "daily"),
             ("indicatorType", .str "SMA"),
             ("parameters", .obj [("time_period", .str "20")])] k =
      jsGet [("indicatorType", .str "SMA"), ("symbol", .str "AAPL"),
             ("interval", .str "daily"),
             ("parameters", .obj [("time_period", .str "20")])] k) ∧
    generateCacheKey
        [("symbol", .str "AAPL"), ("interval", .str "daily"),
         ("indicatorType", .str "SMA"),
         ("parameters", .obj [("time_period", .str "20")])] =
      generateCacheKey
        [("indicatorType", .str "SMA"), ("symbol", .str "AAPL"),
         ("interval", .str "daily"),
         ("parameters", .obj [("time_period", .str "20")])] := by
  have h : ∀ k ∈ cacheKeyFields,
      jsGet [("symbol", .str "AAPL"), ("interval", .str "daily"),
             ("indicatorType", .str "SMA"),
             ("parameters", .obj [("time_period", .str "20")])] k =
      jsGet [("indicatorType", .str "SMA"), ("symbol", .str "AAPL"),
             ("interval", .str "daily"),
             ("parameters", .obj [("time_period", .str "20")])] k := by
    intro k hk
    simp only [cacheKeyFields, List.mem_cons, List.not_mem_nil, or_false] at hk
    rcases hk with rfl | rfl | rfl | rfl | rfl <;> rfl
  exact ⟨h, generateCacheKey_top_level_order_invariant _ _ h⟩

/-- C5: with a resolved fixed numeric target, `EQUALS` holds exactly
when the absolute difference between current value and target is below
the epsilon 1e-4 (strictly), and `NOT_EQUALS` exactly when it is not. -/
theorem evaluateSingleCondition_equality_epsilon
    (env : EvalEnv) (c : ConditionRow) (currentValue : ℚ)
    (previousValue : Option ℚ) (t : ℚ)
    (hTid : c.targetIndicatorId = none) (hTv : c.targetValue = some t) :
    (c.operator = .EQUALS →
      (evaluateSingleCondition env c currentValue previousValue = true ↔
        |currentValue - t| < 1/10000)) ∧
    (c.operator = .NOT_EQUALS →
      (evaluateSingleCondition env c currentValue previousValue = true ↔
        ¬ |currentValue - t| < 1/10000)) ∧
    (∀ target : ℚ,
      (applyOperator .EQUALS currentValue previousValue target = true ↔
        |currentValue - target| < 1/10000) ∧
      (applyOperator .NOT_EQUALS currentValue previousValue target = true ↔
        ¬ |currentValue - target| < 1/10000)) := by
  refine ⟨?_, ?_, ?_⟩
  · intro hop
    unfold evaluateSingleCondition
    simp only [hTid, hTv, hop]
    simp only [applyOperator, decide_eq_true_eq]
    norm_num
  · intro hop
    unfold evaluateSingleCondition
    simp only [hTid, hTv, hop]
    simp only [applyOperator, decide_eq_true_eq]
    norm_num
  · intro target
    constructor <;> simp only [applyOperator, decide_eq_true_eq] <;> norm_num

/-- Witness for C5: current 10.00005 vs target 10 is `EQUALS`-true,
current 10.001 vs target 10 is `EQUALS`-false. -/
theorem evaluateSingleCondition_equality_epsilon_witness :
    evaluateSingleCondition ⟨[], fun _ => none⟩
      ⟨"c1", "SMA", none, none, some "AAPL", some "daily", .obj [],
       .EQUALS, some 10, none⟩ 10.00005 none = true ∧
    evaluateSingleCondition ⟨[], fun _ => none⟩
      ⟨"c1", "SMA", none, none, some "AAPL", some "daily", .obj [],
       .EQUALS, some 10, none⟩ 10.001 none = false := by
  have h1 := (evaluateSingleCondition_equality_epsilon ⟨[], fun _ => none⟩
    ⟨"c1", "SMA", none, none, some "AAPL", some "daily", .obj [],
     .EQUALS, some 10, none⟩ 10.00005 none 10 rfl rfl).1 rfl
  have h2 := (evaluateSingleCondition_equality_epsilon ⟨[], fun _ => none⟩
    ⟨"c1", "SMA", none, none, some "AAPL", some "daily", .obj [],
     .EQUALS, some 10, none⟩ 10.001 none 10 rfl rfl).1 rfl
  constructor
  · refine h1.mpr ?_
    rw [show (10.00005 : ℚ) - 10 = 1/20000 by norm_num,
        abs_of_pos (by norm_num : (0:ℚ) < 1/20000)]
    norm_num
  · refine Bool.eq_false_iff.mpr fun hT => ?_
    have hlt := h2.mp hT
    rw [show (10.001 : ℚ) - 10 = 1/1000 by norm_num,
        abs_of_pos (by norm_num : (0:ℚ) < 1/1000)] at hlt
    norm_num at hlt

/-- C4: with a resolved fixed numeric target, `CROSSES_ABOVE` holds
exactly when a previous value exists with previous ≤ target and
current > target, `CROSSES_BELOW` exactly when a previous value exists
with previous ≥ target and current < target, and with no previous value
both crossover operators evaluate to `false` (no error is raised — the
evaluation is total). -/
theorem evaluateSingleCondition_crossover
    (env : EvalEnv) (c : ConditionRow) (currentValue : ℚ)
    (previousValue : Option ℚ) (t : ℚ)
    (hTid : c.targetIndicatorId = none) (hTv : c.targetValue = some t) :
    (c.operator = .CROSSES_ABOVE →
      (evaluateSingleCondition env c currentValue previousValue = true ↔
        ∃ p, previousValue = some p ∧ p ≤ t ∧ currentValue > t)) ∧
    (c.operator = .CROSSES_BELOW →
      (evaluateSingleCondition env c currentValue previousValue = true ↔
        ∃ p, previousValue = some p ∧ p ≥ t ∧ currentValue < t)) ∧
    (previousValue = none →
      (c.operator = .CROSSES_ABOVE ∨ c.operator = .CROSSES_BELOW) →
      evaluateSingleCondition env c currentValue previousValue = false) ∧
    (∀ target : ℚ,
      (applyOperator .CROSSES_ABOVE currentValue previousValue target = true ↔
        ∃ p, previousValue = some p ∧ p ≤ target ∧ currentValue > target) ∧
      (applyOperator .CROSSES_BELOW currentValue previousValue target = true ↔
        ∃ p, previousValue = some p ∧ p ≥ target ∧ currentValue < target)) := by
  unfold evaluateSingleCondition
  simp only [hTid, hTv]
  refine ⟨?_, ?_, ?_, ?_⟩
  · intro hop
    rw [hop]
    cases previousValue with
    | none => simp [applyOperator]
    | some p => simp [applyOperator, and_assoc]
  · intro hop
    rw [hop]
    cases previousValue with
    | none => simp [applyOperator]
    | some p => simp [applyOperator, and_assoc]
  · intro hprev hop
    rcases hop with hop | hop <;> rw [hop, hprev] <;> simp [applyOperator]
  · intro target
    cases previousValue with
    | none => constructor <;> simp [applyOperator]
    | some p => constructor <;> simp [applyOperator, and_assoc]

/-- Witness for C4: previous 9 → current 11 crosses above target 10;
previous 10.5 → current 11 does not (already above); previous 11 →
current 9 crosses below target 10; with no previous value both
operators give `false`. -/
theorem evaluateSingleCondition_crossover_witness :
    evaluateSingleCondition ⟨[], fun _ => none⟩
      ⟨"c1", "SMA", none, none, some "AAPL", some "daily", .obj [],
       .CROSSES_ABOVE, some 10, none⟩ 11 (some 9) = true ∧
    evaluateSingleCondition ⟨[], fun _ => none⟩
      ⟨"c1", "SMA", none, none, some "AAPL", some "daily", .obj [],
       .CROSSES_ABOVE, some 10, none⟩ 11 (some 10.5) = false ∧
    evaluateSingleCondition ⟨[], fun _ => none⟩
      ⟨"c1", "SMA", none, none, some "AAPL", some "daily", .obj [],
       .CROSSES_BELOW, some 10, none⟩ 9 (some 11) = true ∧
    evaluateSingleCondition ⟨[], fun _ => none⟩
      ⟨"c1", "SMA", none, none, some "AAPL", some "daily", .obj [],
       .CROSSES_ABOVE, some 10, none⟩ 11 none = false := by
  refine ⟨?_, ?_, ?_, ?_⟩
  · exact ((evaluateSingleCondition_crossover ⟨[], fun _ => none⟩
      ⟨"c1", "SMA", none, none, some "AAPL", some "daily", .obj [],
       .CROSSES_ABOVE, some 10, none⟩ 11 (some 9) 10 rfl rfl).1 rfl).mpr
      ⟨9, rfl, by norm_num, by norm_num⟩
  · refine Bool.eq_false_iff.mpr fun hT => ?_
    obtain ⟨p, hp, hle, -⟩ := ((evaluateSingleCondition_crossover ⟨[], fun _ => none⟩
      ⟨"c1", "SMA", none, none, some "AAPL", some "daily", .obj [],
       .CROSSES_ABOVE, some 10, none⟩ 11 (some 10.5) 10 rfl rfl).1 rfl).mp hT
    rw [Option.some_inj] at hp
    rw [← hp] at hle
    norm_num at hle
  · exact ((evaluateSingleCondition_crossover ⟨[], fun _ => none⟩
      ⟨"c1", "SMA", none, none, some "AAPL", some "daily", .obj [],
       .CROSSES_BELOW, some 10, none⟩ 9 (some 11) 10 rfl rfl).2.1 rfl).mpr
      ⟨11, rfl, by norm_num, by norm_num⟩
  · exact (evaluateSingleCondition_crossover ⟨[], fun _ => none⟩
      ⟨"c1", "SMA", none, none, some "AAPL", some "daily", .obj [],
       .CROSSES_ABOVE, some 10, none⟩ 11 none 10 rfl rfl).2.2.1 rfl (Or.inl rfl)

/-- C2 counterexample: a condition whose stored parameters are
structurally equal to the event's parameters but listed in a different
key insertion order is filtered out by the engine's
`JSON.stringify`-based comparison, although its indicator type, symbol
and interval match and it is linked to a block of an active strategy. -/
theorem structurally_equal_parameters_filtered_out :
    structEq
      (JsonVal.obj [("series_type", .str "close"), ("time_period", .num 20)])
      (JsonVal.obj [("time_period", .num 20), ("series_type", .str "close")]) ∧
    matchesEventProfile
      ⟨"SMA", "AAPL", "daily",
       .obj [("time_period", .num 20), ("series_type", .str "close")]⟩
      ⟨⟨"c1", "SMA", none, none, some "AAPL", some "daily",
        .obj [("series_type", .str "close"), ("time_period", .num 20)],
        .GREATER_THAN, some 150, none⟩, [("s1", true)]⟩ = true ∧
    (⟨⟨"c1", "SMA", none, none, some "AAPL", some "daily",
       .obj [("series_type", .str "close"), ("time_period", .num 20)],
       .GREATER_THAN, some 150, none⟩,
      [("s1", true)]⟩ : CondWithLinks).strategyBlocks.any (fun b => b.2) = true ∧
    keptConditions
      ⟨"SMA", "AAPL", "daily",
       .obj [("time_period", .num 20), ("series_type", .str "close")]⟩
      [⟨⟨"c1", "SMA", none, none, some "AAPL", some "daily",
         .obj [("series_type", .str "close"), ("time_period", .num 20)],
         .GREATER_THAN, some 150, none⟩, [("s1", true)]⟩] = [] :=
  ⟨rfl, rfl, rfl, rfl⟩

/-- C2 (amended): the engine keeps exactly those conditions whose
indicator type, symbol and interval match the event's and whose
parameters serialize (`JSON.stringify`, key-order-sensitive) to the same
string as the event's parameters, and which are linked to a block of an
active strategy; parameters that serialize identically are never
filtered out. -/
theorem keptConditions_characterization
    (ev : IndicatorEventFields) (table : List CondWithLinks)
    (c : CondWithLinks) :
    c ∈ keptConditions ev table ↔
      c ∈ table ∧ matchesEventProfile ev c = true ∧
      stringify c.row.parameters = stringify ev.parameters ∧
      ∃ link ∈ c.strategyBlocks, link.2 = true := by
  unfold keptConditions
  simp only [List.mem_filter, Bool.and_eq_true, beq_iff_eq,
    List.any_eq_true, and_assoc]

/-- The worker of `keepFirstById` yields pairwise distinct ids, none of
them previously seen. -/
lemma keepFirstByIdAux_ids_nodup {α : Type} (idOf : α → String)
    (l : List α) : ∀ seen : List String,
    ((keepFirstByIdAux idOf seen l).map idOf).Nodup ∧
    ∀ s ∈ (keepFirstByIdAux idOf seen l).map idOf, s ∉ seen := by
  induction l with
  | nil => intro seen; simp [keepFirstByIdAux]
  | cons x xs ih =>
    intro seen
    cases hcon : seen.contains (idOf x) with
    | true =>
        have hstep : keepFirstByIdAux idOf seen (x :: xs) =
            keepFirstByIdAux idOf seen xs := by
          show (if seen.contains (idOf x) = true then keepFirstByIdAux idOf seen xs
                else x :: keepFirstByIdAux idOf (idOf x :: seen) xs) =
              keepFirstByIdAux idOf seen xs
          exact if_pos hcon
        rw [hstep]
        exact ih seen
    | false =>
        have hstep : keepFirstByIdAux idOf seen (x :: xs) =
            x :: keepFirstByIdAux idOf (idOf x :: seen) xs := by
          show (if seen.contains (idOf x) = true then keepFirstByIdAux idOf seen xs
                else x :: keepFirstByIdAux idOf (idOf x :: seen) xs) =
              x :: keepFirstByIdAux idOf (idOf x :: seen) xs
          exact if_neg (fun h => Bool.noConfusion (hcon ▸ h))
        rw [hstep]
        obtain ⟨hnd, hns⟩ := ih (idOf x :: seen)
        have hxnot : idOf x ∉ (keepFirstByIdAux idOf (idOf x :: seen) xs).map idOf :=
          fun hmem => (hns _ hmem) (List.mem_cons_self _ _)
        have hseen : idOf x ∉ seen := fun hm => by
          have htrue : seen.contains (idOf x) = true :=
            List.elem_eq_true_of_mem hm
          rw [htrue] at hcon
          exact Bool.noConfusion hcon
        constructor
        · simp only [List.map_cons, List.nodup_cons]
          exact ⟨hxnot, hnd⟩
        · intro s hs
          simp only [List.map_cons, List.mem_cons] at hs
          rcases hs with rfl | hs
          · exact hseen
          · exact fun hm => (hns s hs) (List.mem_cons_of_mem _ hm)

/-- Ids in a `keepFirstById` result are pairwise distinct. -/
lemma keepFirstById_ids_nodup {α : Type} (idOf : α → String) (l : List α) :
    ((keepFirstById idOf l).map idOf).Nodup :=
  (keepFirstByIdAux_ids_nodup idOf l []).1

/-- C3: for a strategy with a non-empty collected condition set — the
de-duplicated conditions over all its blocks — the evaluation publishes
nothing if any single condition fails (is false or unresolvable), and if
every condition holds it publishes exactly one `ActionRequiredEvent` per
action of the de-duplicated action set (so zero actions means zero
events). -/
theorem evaluateStrategy_and_semantics
    (env : EvalEnv) (payload : List (String × JsonVal)) (strategyId : String)
    (strategyBlocks : List StrategyBlockRow)
    (hne : keepFirstById (fun c => c.id)
      (strategyBlocks.filterMap (fun b => b.condition)) ≠ []) :
    ((∃ c ∈ keepFirstById (fun c => c.id)
        (strategyBlocks.filterMap (fun b => b.condition)),
        conditionSatisfied env c = false) →
      evaluateStrategy env payload strategyId strategyBlocks = []) ∧
    ((∀ c ∈ keepFirstById (fun c => c.id)
        (strategyBlocks.filterMap (fun b => b.condition)),
        conditionSatisfied env c = true) →
      (evaluateStrategy env payload strategyId strategyBlocks).length =
        (keepFirstById (fun a => a.id)
          (strategyBlocks.filterMap (fun b => b.action))).length ∧
      ∀ a ∈ keepFirstById (fun a => a.id)
          (strategyBlocks.filterMap (fun b => b.action)),
        (evaluateStrategy env payload strategyId strategyBlocks).countP
          (fun e => e.actionId == a.id) = 1) := by
  constructor
  · rintro ⟨c, hc, hcf⟩
    have hall : (keepFirstById (fun c => c.id)
        (strategyBlocks.filterMap (fun b => b.condition))).all
          (conditionSatisfied env) = false := by
      rw [Bool.eq_false_iff]
      intro hT
      rw [List.all_eq_true] at hT
      have h2 := hT c hc
      rw [hcf] at h2
      exact Bool.noConfusion h2
    unfold evaluateStrategy
    cases hemp : (keepFirstById (fun c => c.id)
        (strategyBlocks.filterMap (fun b => b.condition))).isEmpty with
    | true => simp [hemp]
    | false => simp [hemp, hall]
  · intro hAll
    have hallT : (keepFirstById (fun c => c.id)
        (strategyBlocks.filterMap (fun b => b.condition))).all
          (conditionSatisfied env) = true := List.all_eq_true.mpr hAll
    have hempF : (keepFirstById (fun c => c.id)
        (strategyBlocks.filterMap (fun b => b.condition))).isEmpty = false :=
      List.isEmpty_eq_false.mpr hne
    unfold evaluateStrategy
    simp only [hempF, hallT, Bool.false_eq_true, if_false, if_true]
    constructor
    · exact List.length_map _ _
    · intro a ha
      rw [List.countP_map]
      show List.countP (fun x : ActionRow => x.id == a.id)
        (keepFirstById (fun a => a.id)
          (strategyBlocks.filterMap (fun b => b.action))) = 1
      rw [show (fun x : ActionRow => x.id == a.id) =
            ((fun s => s == a.id) ∘ (fun x : ActionRow => x.id)) from rfl,
          ← List.countP_map, ← List.count_eq_countP]
      exact List.count_eq_one_of_mem (keepFirstById_ids_nodup _ _)
        (List.mem_map_of_mem _ ha)

/-- Witness for C3 at the specification's scenario: one SMA > 150
condition on AAPL daily with a cached series whose latest value is 155,
and one linked BUY action — exactly one event is published for the
action. -/
theorem evaluateStrategy_and_semantics_witness :
    (keepFirstById (fun c => c.id)
      (([⟨"s1", 0,
          some ⟨"c1", "SMA", none, none, some "AAPL", some "daily",
                .obj [("time_period", .str "20")], .GREATER_THAN, some 150, none⟩,
          some ⟨"a1", .BUY, .obj [("symbol", .str "AAPL")], 0⟩⟩] :
        List StrategyBlockRow).filterMap (fun b => b.condition)) ≠ []) ∧
    (evaluateStrategy
      ⟨[], fun _ => some ⟨.obj [("2024-01-02", .obj [("SMA", .num 155)]),
                               ("2024-01-01", .obj [("SMA", .num 150)])],
                          .obj [], "t0"⟩⟩
      [("indicatorType", .str "SMA")] "s1"
      [⟨"s1", 0,
        some ⟨"c1", "SMA", none, none, some "AAPL", some "daily",
              .obj [("time_period", .str "20")], .GREATER_THAN, some 150, none⟩,
        some ⟨"a1", .BUY, .obj [("symbol", .str "AAPL")], 0⟩⟩]).countP
      (fun e => e.actionId == "a1") = 1 := by
  have hne : keepFirstById (fun c => c.id)
      (([⟨"s1", 0,
          some ⟨"c1", "SMA", none, none, some "AAPL", some "daily",
                .obj [("time_period", .str "20")], .GREATER_THAN, some 150, none⟩,
          some ⟨"a1", .BUY, .obj [("symbol", .str "AAPL")], 0⟩⟩] :
        List StrategyBlockRow).filterMap (fun b => b.condition)) ≠ [] := by
    exact List.cons_ne_nil _ _
  have hAll : ∀ c ∈ keepFirstById (fun c => c.id)
      (([⟨"s1", 0,
          some ⟨"c1", "SMA", none, none, some "AAPL", some "daily",
                .obj [("time_period", .str "20")], .GREATER_THAN, some 150, none⟩,
          some ⟨"a1", .BUY, .obj [("symbol", .str "AAPL")], 0⟩⟩] :
        List StrategyBlockRow).filterMap (fun b => b.condition)),
      conditionSatisfied
        ⟨[], fun _ => some ⟨.obj [("2024-01-02", .obj [("SMA", .num 155)]),
                                 ("2024-01-01", .obj [("SMA", .num 150)])],
                            .obj [], "t0"⟩⟩ c = true := by
    intro c hc
    have hcs : c = ⟨"c1", "SMA", none, none, some "AAPL", some "daily",
        .obj [("time_period", .str "20")], .GREATER_THAN, some 150, none⟩ := by
      have hmem : c ∈ [(⟨"c1", "SMA", none, none, some "AAPL", some "daily",
          .obj [("time_period", .str "20")], .GREATER_THAN, some 150, none⟩ :
          ConditionRow)] := hc
      simpa using hmem
    rw [hcs]
    rfl
  have h := (evaluateStrategy_and_semantics
    ⟨[], fun _ => some ⟨.obj [("2024-01-02", .obj [("SMA", .num 155)]),
                             ("2024-01-01", .obj [("SMA", .num 150)])],
                        .obj [], "t0"⟩⟩
    [("indicatorType", .str "SMA")] "s1"
    [⟨"s1", 0,
      some ⟨"c1", "SMA", none, none, some "AAPL", some "daily",
            .obj [("time_period", .str "20")], .GREATER_THAN, some 150, none⟩,
      some ⟨"a1", .BUY, .obj [("symbol", .str "AAPL")], 0⟩⟩] hne).2 hAll
  refine ⟨hne, ?_⟩
  have hone := h.2 ⟨"a1", .BUY, .obj [("symbol", .str "AAPL")], 0⟩ ?_
  · exact hone
  · show (⟨"a1", .BUY, .obj [("symbol", .str "AAPL")], 0⟩ : ActionRow) ∈
      [(⟨"a1", .BUY, .obj [("symbol", .str "AAPL")], 0⟩ : ActionRow)]
    exact List.mem_singleton.mpr rfl

/-- Two members of a list mapping to the same image under an injective
(`Nodup`-image) projection are the same member. -/
lemma mem_map_nodup_unique {α β : Type} (f : α → β) :
    ∀ {l : List α}, (l.map f).Nodup → ∀ {a b : α},
      a ∈ l → b ∈ l → f a = f b → a = b := by
  intro l
  induction l with
  | nil => intro _ a b ha; exact absurd ha (List.not_mem_nil a)
  | cons x xs ih =>
    intro hnd a b ha hb hf
    rw [List.map_cons, List.nodup_cons] at hnd
    rcases List.mem_cons.mp ha with hax | ham
    · rcases List.mem_cons.mp hb with hbx | hbm
      · rw [hax, hbx]
      · exfalso
        apply hnd.1
        rw [← hax, hf]
        exact List.mem_map_of_mem f hbm
    · rcases List.mem_cons.mp hb with hbx | hbm
      · exfalso
        apply hnd.1
        rw [← hbx, ← hf]
        exact List.mem_map_of_mem f ham
      · exact ih hnd.2 ham hbm hf

/-- `jobTask` is `none` exactly when no scheduled job carries the key. -/
lemma jobTask_none_iff (st : SchedulerState) (k : String) :
    jobTask st k = none ↔ ∀ e ∈ st.scheduledJobs, e.1 ≠ k := by
  unfold jobTask
  rw [Option.map_eq_none', List.find?_eq_none]
  constructor
  · intro h e he
    have := h e he
    simpa using this
  · intro h e he
    simpa using h e he

/-- A successful `jobTask` lookup names an entry of the map. -/
lemma jobTask_some_mem (st : SchedulerState) (k : String) (t : Nat)
    (h : jobTask st k = some t) : (k, t) ∈ st.scheduledJobs := by
  unfold jobTask at h
  rw [Option.map_eq_some'] at h
  obtain ⟨e, hfind, hsnd⟩ := h
  have hmem := List.mem_of_find?_eq_some hfind
  have hkey : e.1 = k := by
    have := List.find?_some hfind
    simpa using this
  obtain ⟨e1, e2⟩ := e
  cases hkey
  cases hsnd
  exact hmem

/-- With pairwise distinct keys, membership determines the `jobTask`
lookup. -/
lemma mem_jobTask_some (st : SchedulerState) (k : String) (t : Nat)
    (hnd : (st.scheduledJobs.map Prod.fst).Nodup)
    (h : (k, t) ∈ st.scheduledJobs) : jobTask st k = some t := by
  cases hfind : st.scheduledJobs.find? (fun j => j.1 == k) with
  | none =>
      exfalso
      have := List.find?_eq_none.mp hfind (k, t) h
      simp at this
  | some e =>
      have hmem := List.mem_of_find?_eq_some hfind
      have hkey : e.1 = k := by
        have := List.find?_some hfind
        simpa using this
      have heq : e = (k, t) := by
        apply mem_map_nodup_unique Prod.fst hnd hmem h
        simpa using hkey
      unfold jobTask
      rw [hfind, heq]
      rfl

/-- The state reached after processing the head key of the scan. -/
def scheduleStep (st : SchedulerState) (jobKey : String) : SchedulerState :=
  if st.scheduledJobs.any (fun j => j.1 == jobKey) then st
  else ⟨st.scheduledJobs ++ [(jobKey, st.nextTaskHandle)],
        st.nextTaskHandle + 1⟩

lemma scheduleNewJobs_cons (j : String) (rest : List String)
    (st : SchedulerState) :
    scheduleNewJobs (j :: rest) st = scheduleNewJobs rest (scheduleStep st j) :=
  rfl

lemma scheduleStep_pos {st : SchedulerState} {j : String}
    (hany : st.scheduledJobs.any (fun j0 => j0.1 == j) = true) :
    scheduleStep st j = st := if_pos hany

lemma scheduleStep_neg {st : SchedulerState} {j : String}
    (hany : st.scheduledJobs.any (fun j0 => j0.1 == j) = false) :
    scheduleStep st j =
      ⟨st.scheduledJobs ++ [(j, st.nextTaskHandle)], st.nextTaskHandle + 1⟩ :=
  if_neg (fun hc => Bool.noConfusion (hany ▸ hc))

/-- A step keeps every existing map entry. -/
lemma scheduleStep_mem_preserved (st : SchedulerState) (j : String)
    (e : String × Nat) (he : e ∈ st.scheduledJobs) :
    e ∈ (scheduleStep st j).scheduledJobs := by
  cases hany : st.scheduledJobs.any (fun j0 => j0.1 == j) with
  | true => rw [scheduleStep_pos hany]; exact he
  | false => rw [scheduleStep_neg hany]; exact List.mem_append_left _ he

/-- Scheduling keeps every existing map entry. -/
lemma scheduleNewJobs_mem_preserved (keys : List String) :
    ∀ (st : SchedulerState) (e : String × Nat),
      e ∈ st.scheduledJobs → e ∈ (scheduleNewJobs keys st).scheduledJobs := by
  induction keys with
  | nil => intro st e he; exact he
  | cons j rest ih =>
    intro st e he
    rw [scheduleNewJobs_cons]
    exact ih _ e (scheduleStep_mem_preserved st j e he)

/-- The task counter never decreases while scheduling. -/
lemma scheduleNewJobs_next_mono (keys : List String) :
    ∀ st : SchedulerState,
      st.nextTaskHandle ≤ (scheduleNewJobs keys st).nextTaskHandle := by
  induction keys with
  | nil => intro st; exact Nat.le_refl _
  | cons j rest ih =>
    intro st
    rw [scheduleNewJobs_cons]
    refine Nat.le_trans ?_ (ih (scheduleStep st j))
    cases hany : st.scheduledJobs.any (fun j0 => j0.1 == j) with
    | true => rw [scheduleStep_pos hany]
    | false => rw [scheduleStep_neg hany]; exact Nat.le_succ _

/-- Every entry after scheduling is an old entry or a freshly created
one (handle at or above the old counter, key in the scanned set). -/
lemma scheduleNewJobs_mem_inv (keys : List String) :
    ∀ (st : SchedulerState) (e : String × Nat),
      e ∈ (scheduleNewJobs keys st).scheduledJobs →
      e ∈ st.scheduledJobs ∨ (st.nextTaskHandle ≤ e.2 ∧ e.1 ∈ keys) := by
  induction keys with
  | nil => intro st e he; exact Or.inl he
  | cons j rest ih =>
    intro st e he
    rw [scheduleNewJobs_cons] at he
    cases hany : st.scheduledJobs.any (fun j0 => j0.1 == j) with
    | true =>
        rw [scheduleStep_pos hany] at he
        rcases ih st e he with h | ⟨hle, hk⟩
        · exact Or.inl h
        · exact Or.inr ⟨hle, List.mem_cons_of_mem _ hk⟩
    | false =>
        rw [scheduleStep_neg hany] at he
        rcases ih _ e he with h | ⟨hle, hk⟩
        · rcases List.mem_append.mp h with h1 | h1
          · exact Or.inl h1
          · have he2 : e = (j, st.nextTaskHandle) := by simpa using h1
            rw [he2]
            exact Or.inr ⟨Nat.le_refl _, List.mem_cons_self _ _⟩
        · exact Or.inr ⟨Nat.le_trans (Nat.le_succ _) hle,
            List.mem_cons_of_mem _ hk⟩

/-- Every scanned key ends up scheduled. -/
lemma scheduleNewJobs_mem_key (keys : List String) :
    ∀ (st : SchedulerState) (k : String), k ∈ keys →
      ∃ t, (k, t) ∈ (scheduleNewJobs keys st).scheduledJobs := by
  induction keys with
  | nil => intro st k hk; exact absurd hk (List.not_mem_nil k)
  | cons j rest ih =>
    intro st k hk
    rw [scheduleNewJobs_cons]
    rcases List.mem_cons.mp hk with hkj | hk
    · cases hany : st.scheduledJobs.any (fun j0 => j0.1 == j) with
      | true =>
          rw [scheduleStep_pos hany]
          obtain ⟨e, he, hp⟩ := List.any_eq_true.mp hany
          have hkey : e.1 = j := by simpa using hp
          refine ⟨e.2, ?_⟩
          have he2 : e = (k, e.2) := by
            obtain ⟨e1, e2⟩ := e
            simp only at hkey
            rw [hkj, ← hkey]
          rw [← he2]
          exact scheduleNewJobs_mem_preserved rest st e he
      | false =>
          rw [scheduleStep_neg hany]
          refine ⟨st.nextTaskHandle, ?_⟩
          rw [hkj]
          exact scheduleNewJobs_mem_preserved rest _ _
            (List.mem_append_right _ (List.mem_singleton.mpr rfl))
    · exact ih (scheduleStep st j) k hk

/-- A step preserves well-formedness of the task map. -/
lemma scheduleStep_wf (st : SchedulerState) (j : String)
    (hwf : SchedulerWF st) : SchedulerWF (scheduleStep st j) := by
  cases hany : st.scheduledJobs.any (fun j0 => j0.1 == j) with
  | true => rw [scheduleStep_pos hany]; exact hwf
  | false =>
      rw [scheduleStep_neg hany]
      obtain ⟨hk, ht, hb⟩ := hwf
      have hjnot : j ∉ st.scheduledJobs.map Prod.fst := by
        intro hj
        obtain ⟨e, he, hfe⟩ := List.mem_map.mp hj
        have hcontra : st.scheduledJobs.any (fun j0 => j0.1 == j) = true := by
          refine List.any_eq_true.mpr ⟨e, he, ?_⟩
          simp [hfe]
        rw [hany] at hcontra
        exact Bool.noConfusion hcontra
      have hnnot : st.nextTaskHandle ∉ st.scheduledJobs.map Prod.snd :=
        fun hn => absurd rfl (Nat.ne_of_lt (hb _ hn))
      refine ⟨?_, ?_, ?_⟩
      · rw [List.map_append]
        refine List.Nodup.append hk (List.nodup_singleton _) ?_
        intro a ha hb1
        have haj : a = j := by simpa using hb1
        rw [haj] at ha
        exact hjnot ha
      · rw [List.map_append]
        refine List.Nodup.append ht (List.nodup_singleton _) ?_
        intro a ha hb1
        have han : a = st.nextTaskHandle := by simpa using hb1
        rw [han] at ha
        exact hnnot ha
      · intro t htm
        rw [List.map_append] at htm
        rcases List.mem_append.mp htm with h1 | h1
        · exact Nat.lt_trans (hb t h1) (Nat.lt_succ_self _)
        · have htn : t = st.nextTaskHandle := by simpa using h1
          rw [htn]
          exact Nat.lt_succ_self _

/-- Scheduling preserves well-formedness of the task map. -/
lemma scheduleNewJobs_wf (keys : List String) :
    ∀ st : SchedulerState, SchedulerWF st →
      SchedulerWF (scheduleNewJobs keys st) := by
  induction keys with
  | nil => intro st h; exact h
  | cons j rest ih =>
    intro st hwf
    rw [scheduleNewJobs_cons]
    exact ih _ (scheduleStep_wf st j hwf)

/-- C9: a discovery tick updates the fingerprint→task map by diff.  A
fingerprint in the new scan with no existing task gets a fresh task (a
handle never handed out before, not stopped this tick); a fingerprint
with a task but absent from the scan has its task stopped and removed;
a fingerprint present in both keeps its task handle unchanged, neither
stopped nor re-created. -/
theorem discoveryTick_diff
    (indicators : List (List (String × JsonVal))) (st : SchedulerState)
    (hwf : SchedulerWF st) (k : String) :
    (k ∈ indicators.map generateCacheKey → jobTask st k = none →
       ∃ t, jobTask (discoveryTick indicators st).state k = some t ∧
         st.nextTaskHandle ≤ t ∧
         t ∉ (discoveryTick indicators st).stoppedTasks) ∧
    (∀ t, jobTask st k = some t → k ∉ indicators.map generateCacheKey →
       jobTask (discoveryTick indicators st).state k = none ∧
       t ∈ (discoveryTick indicators st).stoppedTasks) ∧
    (∀ t, jobTask st k = some t → k ∈ indicators.map generateCacheKey →
       jobTask (discoveryTick indicators st).state k = some t ∧
       t ∉ (discoveryTick indicators st).stoppedTasks) := by
  have hwfA : SchedulerWF
      (scheduleNewJobs (indicators.map generateCacheKey) st) :=
    scheduleNewJobs_wf _ st hwf
  have hstate : (discoveryTick indicators st).state.scheduledJobs =
      (scheduleNewJobs (indicators.map generateCacheKey) st).scheduledJobs.filter
        (fun j => (indicators.map generateCacheKey).contains j.1) := rfl
  have hstop : (discoveryTick indicators st).stoppedTasks =
      ((scheduleNewJobs (indicators.map generateCacheKey) st).scheduledJobs.filter
        (fun j => !((indicators.map generateCacheKey).contains j.1))).map
        Prod.snd := rfl
  have hndState :
      ((discoveryTick indicators st).state.scheduledJobs.map Prod.fst).Nodup := by
    rw [hstate]
    exact List.Nodup.sublist (List.Sublist.map _ (List.filter_sublist _)) hwfA.1
  have hstopmem : ∀ t, t ∈ (discoveryTick indicators st).stoppedTasks ↔
      ∃ e, e ∈ (scheduleNewJobs (indicators.map generateCacheKey) st).scheduledJobs ∧
        e.2 = t ∧ (indicators.map generateCacheKey).contains e.1 = false := by
    intro t
    rw [hstop]
    constructor
    · intro h
      obtain ⟨e, he, het⟩ := List.mem_map.mp h
      obtain ⟨he1, he2⟩ := List.mem_filter.mp he
      refine ⟨e, he1, het, ?_⟩
      cases hc : (indicators.map generateCacheKey).contains e.1 with
      | true => rw [hc] at he2; exact Bool.noConfusion he2
      | false => rfl
    · rintro ⟨e, he, het, hc⟩
      refine List.mem_map.mpr ⟨e, List.mem_filter.mpr ⟨he, ?_⟩, het⟩
      rw [hc]
      rfl
  have hNotStopped : ∀ t, (k, t) ∈
      (scheduleNewJobs (indicators.map generateCacheKey) st).scheduledJobs →
      k ∈ indicators.map generateCacheKey →
      t ∉ (discoveryTick indicators st).stoppedTasks := by
    intro t htA hk hstopt
    obtain ⟨e, heA, he2, hec⟩ := (hstopmem t).mp hstopt
    have hekt : e = (k, t) := by
      apply mem_map_nodup_unique Prod.snd hwfA.2.1 heA htA
      rw [he2]
    rw [hekt] at hec
    have hkc : (indicators.map generateCacheKey).contains k = true :=
      List.elem_eq_true_of_mem hk
    rw [hkc] at hec
    exact Bool.noConfusion hec
  have hKeptTask : ∀ t, (k, t) ∈
      (scheduleNewJobs (indicators.map generateCacheKey) st).scheduledJobs →
      k ∈ indicators.map generateCacheKey →
      jobTask (discoveryTick indicators st).state k = some t := by
    intro t htA hk
    apply mem_jobTask_some _ k t hndState
    rw [hstate]
    refine List.mem_filter.mpr ⟨htA, ?_⟩
    exact List.elem_eq_true_of_mem hk
  refine ⟨?_, ?_, ?_⟩
  · -- new fingerprint
    intro hk hnone
    obtain ⟨t, htA⟩ := scheduleNewJobs_mem_key _ st k hk
    have hfresh : st.nextTaskHandle ≤ t := by
      rcases scheduleNewJobs_mem_inv _ st (k, t) htA with hold | ⟨hle, _⟩
      · exact absurd rfl ((jobTask_none_iff st k).mp hnone (k, t) hold)
      · exact hle
    exact ⟨t, hKeptTask t htA hk, hfresh, hNotStopped t htA hk⟩
  · -- removed fingerprint
    intro t ht hknot
    have hmemA : (k, t) ∈
        (scheduleNewJobs (indicators.map generateCacheKey) st).scheduledJobs :=
      scheduleNewJobs_mem_preserved _ st _ (jobTask_some_mem st k t ht)
    have hkc : (indicators.map generateCacheKey).contains k = false := by
      cases hc : (indicators.map generateCacheKey).contains k with
      | true => exact absurd (List.mem_of_elem_eq_true hc) hknot
      | false => rfl
    constructor
    · rw [jobTask_none_iff]
      intro e he hek
      rw [hstate] at he
      obtain ⟨heA, hecont⟩ := List.mem_filter.mp he
      rw [hek, hkc] at hecont
      exact Bool.noConfusion hecont
    · exact (hstopmem t).mpr ⟨(k, t), hmemA, rfl, hkc⟩
  · -- retained fingerprint
    intro t ht hk
    have hmemA : (k, t) ∈
        (scheduleNewJobs (indicators.map generateCacheKey) st).scheduledJobs :=
      scheduleNewJobs_mem_preserved _ st _ (jobTask_some_mem st k t ht)
    exact ⟨hKeptTask t hmemA hk, hNotStopped t hmemA hk⟩

/-- Witness for C9: scanning \x7bA,B\x7d then \x7bB,C\x7d cancels A's
task, schedules a fresh task for C, and leaves B's task handle
unchanged. -/
theorem discoveryTick_diff_witness :
    SchedulerWF (discoveryTick
      [[("indicatorType", .str "A")], [("indicatorType", .str "B")]]
      ⟨[], 0⟩).state ∧
    (jobTask (discoveryTick
        [[("indicatorType", .str "B")], [("indicatorType", .str "C")]]
        (discoveryTick
          [[("indicatorType", .str "A")], [("indicatorType", .str "B")]]
          ⟨[], 0⟩).state).state
        (generateCacheKey [("indicatorType", .str "B")]) = some 1 ∧
      1 ∉ (discoveryTick
        [[("indicatorType", .str "B")], [("indicatorType", .str "C")]]
        (discoveryTick
          [[("indicatorType", .str "A")], [("indicatorType", .str "B")]]
          ⟨[], 0⟩).state).stoppedTasks) ∧
    (jobTask (discoveryTick
        [[("indicatorType", .str "B")], [("indicatorType", .str "C")]]
        (discoveryTick
          [[("indicatorType", .str "A")], [("indicatorType", .str "B")]]
          ⟨[], 0⟩).state).state
        (generateCacheKey [("indicatorType", .str "A")]) = none ∧
      0 ∈ (discoveryTick
        [[("indicatorType", .str "B")], [("indicatorType", .str "C")]]
        (discoveryTick
          [[("indicatorType", .str "A")], [("indicatorType", .str "B")]]
          ⟨[], 0⟩).state).stoppedTasks) ∧
    (∃ t, jobTask (discoveryTick
        [[("indicatorType", .str "B")], [("indicatorType", .str "C")]]
        (discoveryTick
          [[("indicatorType", .str "A")], [("indicatorType", .str "B")]]
          ⟨[], 0⟩).state).state
        (generateCacheKey [("indicatorType", .str "C")]) = some t ∧
      (discoveryTick
        [[("indicatorType", .str "A")], [("indicatorType", .str "B")]]
        ⟨[], 0⟩).state.nextTaskHandle ≤ t ∧
      t ∉ (discoveryTick
        [[("indicatorType", .str "B")], [("indicatorType", .str "C")]]
        (discoveryTick
          [[("indicatorType", .str "A")], [("indicatorType", .str "B")]]
          ⟨[], 0⟩).state).stoppedTasks) := by
  have hwf1 : SchedulerWF (discoveryTick
      [[("indicatorType", .str "A")], [("indicatorType", .str "B")]]
      ⟨[], 0⟩).state := ⟨by decide, by decide, by decide⟩
  have hdiff := discoveryTick_diff
    [[("indicatorType", .str "B")], [("indicatorType", .str "C")]]
    (discoveryTick
      [[("indicatorType", .str "A")], [("indicatorType", .str "B")]]
      ⟨[], 0⟩).state hwf1
  refine ⟨hwf1, ?_, ?_, ?_⟩
  · exact (hdiff (generateCacheKey [("indicatorType", .str "B")])).2.2 1
      (by decide) (by decide)
  · exact (hdiff (generateCacheKey [("indicatorType", .str "A")])).2.1 0
      (by decide) (by decide)
  · exact (hdiff (generateCacheKey [("indicatorType", .str "C")])).1
      (by decide) (by decide)

end Showcase
